import Mathlib

set_option maxRecDepth 10000

/-!
Verification of the LinuxPods AirPods state-acquisition core.

This file is a shallow embedding, in Lean 4, of the pure core of the
LinuxPods Go sources: the Apple Continuity proximity-pairing codec
(`internal/ble`), the AAP battery/key codec (`internal/aap`), and the pure
state-transformation functions of the state coordinator
(`internal/podstate`).

Modelling conventions:
- Go byte slices are `List Nat` whose elements are intended to lie in
  `0..255`; where Go's fixed-width arithmetic can wrap (`uint8`
  multiplication in `DecodeBattery`) the model keeps an explicit `% 256`.
- Go `*uint8` / `*int` optional values are `Option Nat`.
- Go functions returning `(T, error)` become `Except E T` with an
  enumerated error type per distinct `fmt.Errorf` site.
- The AES-128 block decryption performed by Go's `crypto/aes`
  (`block.Decrypt`) is embedded as a full executable AES-128 inverse
  cipher (FIPS-197), so that decryption-dependent behaviour is computable
  inside Lean.
- Concurrency is not modelled; the coordinator's loop bodies are embedded
  as pure state-transition functions on a coordinator record, with Go maps
  rendered as functions (`deviceStates`) or association lists in iteration
  order (`encryptionKeys`).
-/

/-- Decidable equality for `Except`, so that concrete codec runs can be
checked by `decide`. -/
instance {ε α : Type} [DecidableEq ε] [DecidableEq α] : DecidableEq (Except ε α)
  | .error e, .error f =>
      match decEq e f with
      | isTrue h => isTrue (by rw [h])
      | isFalse h => isFalse (by intro hc; cases hc; exact h rfl)
  | .error _, .ok _ => isFalse (by intro hc; cases hc)
  | .ok _, .error _ => isFalse (by intro hc; cases hc)
  | .ok x, .ok y =>
      match decEq x y with
      | isTrue h => isTrue (by rw [h])
      | isFalse h => isFalse (by intro hc; cases hc; exact h rfl)

namespace ble

/-- Go constant `proximityType = 0x07` (internal/ble, proximity codec). -/
def proximityType : Nat := 0x07

/-- Embedding of the Go struct `ProximityData` (internal/ble): the parsed
Apple Continuity proximity-pairing record, including the optional decrypted
portion. Field defaults mirror Go zero values. -/
structure ProximityData where
  DeviceModel : Nat := 0
  Status : Nat := 0
  LeftBattery : Option Nat := none
  RightBattery : Option Nat := none
  CaseBattery : Option Nat := none
  LeftCharging : Bool := false
  RightCharging : Bool := false
  CaseCharging : Bool := false
  LeftInEar : Bool := false
  RightInEar : Bool := false
  LidOpen : Bool := false
  Color : Nat := 0
  ConnectionState : Nat := 0
  IsFlipped : Bool := false
  RawData : List Nat := []
  HasDecrypted : Bool := false
  RawDecrypted : List Nat := []
  deriving Repr, DecidableEq

/-- Embedding of Go `DecodeBattery` (internal/ble): decode a battery
nibble; `0x0..0x9` map to tens, `0xA..0xE` to `100`, `0xF` (and anything
larger) to unknown. The `% 256` mirrors Go's `uint8` multiplication. -/
def DecodeBattery (nibble : Nat) : Option Nat :=
  if nibble ≤ 0x9 then some (nibble * 10 % 256)
  else if nibble ≤ 0xE then some 100
  else none

/-- The `primaryLeft` computation of Go `ParseProximityData`:
bit 5 of the status byte. -/
def primaryLeftBit (statusByte : Nat) : Bool :=
  ((statusByte >>> 5) &&& 0x01) == 1

/-- The `thisInCase` computation of Go `ParseProximityData`:
bit 6 of the status byte. -/
def inCaseBit (statusByte : Nat) : Bool :=
  ((statusByte >>> 6) &&& 0x01) == 1

/-- The distinct `fmt.Errorf` sites of Go `ParseProximityData`. -/
inductive ParseError where
  | tooShort
  | notProximity
  | incomplete
  | payloadTooShort
  | badPrefixByte
  deriving Repr, DecidableEq

/-- Embedding of Go `ParseProximityData` (internal/ble): parse an Apple
Continuity proximity-pairing advertisement. Indexing uses `List.getD` with
default `0`; every Go index access is guarded by the same length checks as
the source, so the defaults are never observable on the success path. -/
def ParseProximityData (data : List Nat) : Except ParseError ProximityData :=
  if data.length < 2 then .error .tooShort
  else if data.getD 0 0 ≠ proximityType then .error .notProximity
  else
    let length := data.getD 1 0
    if data.length < 2 + length then .error .incomplete
    else
      let payload := (data.drop 2).take length
      if payload.length < 10 then .error .payloadTooShort
      else if payload.getD 0 0 ≠ 0x01 then .error .badPrefixByte
      else
        let statusByte := payload.getD 3 0
        let primaryLeft := primaryLeftBit statusByte
        let thisInCase := inCaseBit statusByte
        let isFlipped := !primaryLeft
        let xorFactor := primaryLeft != thisInCase
        let batteryByte := payload.getD 4 0
        let leftNibble := if isFlipped then batteryByte &&& 0x0F else (batteryByte >>> 4) &&& 0x0F
        let rightNibble := if isFlipped then (batteryByte >>> 4) &&& 0x0F else batteryByte &&& 0x0F
        let chargingByte := payload.getD 5 0
        let caseChargingBit := ((chargingByte >>> (8 - 2)) &&& 0x01) != 0
        let rightChargingBit := ((chargingByte >>> (8 - 3)) &&& 0x01) != 0
        let leftChargingBit := ((chargingByte >>> (8 - 4)) &&& 0x01) != 0
        let leftInEarBit := (statusByte &&& 0x08) != 0
        let rightInEarBit := (statusByte &&& 0x02) != 0
        .ok {
          DeviceModel := (payload.getD 1 0) <<< 8 ||| payload.getD 2 0
          Status := statusByte
          LeftBattery := DecodeBattery leftNibble
          RightBattery := DecodeBattery rightNibble
          CaseBattery := if payload.length > 5 then DecodeBattery (payload.getD 5 0 &&& 0x0F) else none
          LeftCharging := if isFlipped then rightChargingBit else leftChargingBit
          RightCharging := if isFlipped then leftChargingBit else rightChargingBit
          CaseCharging := caseChargingBit
          LeftInEar := if xorFactor then rightInEarBit else leftInEarBit
          RightInEar := if xorFactor then leftInEarBit else rightInEarBit
          LidOpen := if payload.length > 8 then ((payload.getD 8 0 >>> 3) &&& 0x01) == 0 else false
          Color := if payload.length > 7 then payload.getD 7 0 else 0
          ConnectionState := if payload.length > 9 then payload.getD 9 0 else 0
          IsFlipped := isFlipped
          RawData := payload
          HasDecrypted := false
          RawDecrypted := []
        }

/-- AES S-box (FIPS-197 figure 7), used by the key schedule of the AES-128
block cipher that Go `DecryptProximityPayload` obtains from `crypto/aes`. -/
def sboxTable : List Nat :=
  [99, 124, 119, 123, 242, 107, 111, 197, 48, 1, 103, 43, 254, 215, 171, 118,
   202, 130, 201, 125, 250, 89, 71, 240, 173, 212, 162, 175, 156, 164, 114, 192,
   183, 253, 147, 38, 54, 63, 247, 204, 52, 165, 229, 241, 113, 216, 49, 21,
   4, 199, 35, 195, 24, 150, 5, 154, 7, 18, 128, 226, 235, 39, 178, 117,
   9, 131, 44, 26, 27, 110, 90, 160, 82, 59, 214, 179, 41, 227, 47, 132,
   83, 209, 0, 237, 32, 252, 177, 91, 106, 203, 190, 57, 74, 76, 88, 207,
   208, 239, 170, 251, 67, 77, 51, 133, 69, 249, 2, 127, 80, 60, 159, 168,
   81, 163, 64, 143, 146, 157, 56, 245, 188, 182, 218, 33, 16, 255, 243, 210,
   205, 12, 19, 236, 95, 151, 68, 23, 196, 167, 126, 61, 100, 93, 25, 115,
   96, 129, 79, 220, 34, 42, 144, 136, 70, 238, 184, 20, 222, 94, 11, 219,
   224, 50, 58, 10, 73, 6, 36, 92, 194, 211, 172, 98, 145, 149, 228, 121,
   231, 200, 55, 109, 141, 213, 78, 169, 108, 86, 244, 234, 101, 122, 174, 8,
   186, 120, 37, 46, 28, 166, 180, 198, 232, 221, 116, 31, 75, 189, 139, 138,
   112, 62, 181, 102, 72, 3, 246, 14, 97, 53, 87, 185, 134, 193, 29, 158,
   225, 248, 152, 17, 105, 217, 142, 148, 155, 30, 135, 233, 206, 85, 40, 223,
   140, 161, 137, 13, 191, 230, 66, 104, 65, 153, 45, 15, 176, 84, 187, 22]

/-- AES inverse S-box (FIPS-197 figure 14). -/
def invSboxTable : List Nat :=
  [82, 9, 106, 213, 48, 54, 165, 56, 191, 64, 163, 158, 129, 243, 215, 251,
   124, 227, 57, 130, 155, 47, 255, 135, 52, 142, 67, 68, 196, 222, 233, 203,
   84, 123, 148, 50, 166, 194, 35, 61, 238, 76, 149, 11, 66, 250, 195, 78,
   8, 46, 161, 102, 40, 217, 36, 178, 118, 91, 162, 73, 109, 139, 209, 37,
   114, 248, 246, 100, 134, 104, 152, 22, 212, 164, 92, 204, 93, 101, 182, 146,
   108, 112, 72, 80, 253, 237, 185, 218, 94, 21, 70, 87, 167, 141, 157, 132,
   144, 216, 171, 0, 140, 188, 211, 10, 247, 228, 88, 5, 184, 179, 69, 6,
   208, 44, 30, 143, 202, 63, 15, 2, 193, 175, 189, 3, 1, 19, 138, 107,
   58, 145, 17, 65, 79, 103, 220, 234, 151, 242, 207, 206, 240, 180, 230, 115,
   150, 172, 116, 34, 231, 173, 53, 133, 226, 249, 55, 232, 28, 117, 223, 110,
   71, 241, 26, 113, 29, 41, 197, 137, 111, 183, 98, 14, 170, 24, 190, 27,
   252, 86, 62, 75, 198, 210, 121, 32, 154, 219, 192, 254, 120, 205, 90, 244,
   31, 221, 168, 51, 136, 7, 199, 49, 177, 18, 16, 89, 39, 128, 236, 95,
   96, 81, 127, 169, 25, 181, 74, 13, 45, 229, 122, 159, 147, 201, 156, 239,
   160, 224, 59, 77, 174, 42, 245, 176, 200, 235, 187, 60, 131, 83, 153, 97,
   23, 43, 4, 126, 186, 119, 214, 38, 225, 105, 20, 99, 85, 33, 12, 125]

/-- S-box substitution of one byte. -/
def sb (b : Nat) : Nat := sboxTable.getD b 0

/-- Inverse S-box substitution of one byte. -/
def isb (b : Nat) : Nat := invSboxTable.getD b 0

/-- Multiplication by `x` in GF(2^8) modulo the AES polynomial `0x11B`. -/
def xtime (b : Nat) : Nat :=
  if b &&& 0x80 == 0 then (b <<< 1) &&& 0xFF else ((b <<< 1) ^^^ 0x1B) &&& 0xFF

/-- Multiplication by 9 in GF(2^8). -/
def mul9 (b : Nat) : Nat := xtime (xtime (xtime b)) ^^^ b

/-- Multiplication by 11 in GF(2^8). -/
def mul11 (b : Nat) : Nat := xtime (xtime (xtime b)) ^^^ xtime b ^^^ b

/-- Multiplication by 13 in GF(2^8). -/
def mul13 (b : Nat) : Nat := xtime (xtime (xtime b)) ^^^ xtime (xtime b) ^^^ b

/-- Multiplication by 14 in GF(2^8). -/
def mul14 (b : Nat) : Nat := xtime (xtime (xtime b)) ^^^ xtime (xtime b) ^^^ xtime b

/-- AES round constants for AES-128 key expansion. -/
def rconTable : List Nat := [1, 2, 4, 8, 16, 32, 64, 128, 27, 54]

/-- RotWord of the AES key schedule. -/
def rotWord (w : List Nat) : List Nat := w.drop 1 ++ w.take 1

/-- SubWord of the AES key schedule. -/
def subWord (w : List Nat) : List Nat := w.map sb

/-- Bytewise xor of two equal-length byte lists. -/
def zipXor (a b : List Nat) : List Nat := List.zipWith (· ^^^ ·) a b

/-- One expansion step list: starting from the four words of the key,
append `n` further words of the AES-128 key schedule. -/
def expandWords : Nat → List (List Nat) → List (List Nat)
  | 0, ws => ws
  | n + 1, ws =>
      let i := ws.length
      let wprev := ws.getD (i - 1) []
      let w4 := ws.getD (i - 4) []
      let t :=
        if i % 4 == 0 then
          match subWord (rotWord wprev) with
          | a :: rest => (a ^^^ rconTable.getD (i / 4 - 1) 0) :: rest
          | [] => []
        else wprev
      expandWords n (ws ++ [zipXor w4 t])

/-- The 11 round keys (16 bytes each) of the AES-128 key schedule. -/
def roundKeys (key : List Nat) : List (List Nat) :=
  let w0 := [key.getD 0 0, key.getD 1 0, key.getD 2 0, key.getD 3 0]
  let w1 := [key.getD 4 0, key.getD 5 0, key.getD 6 0, key.getD 7 0]
  let w2 := [key.getD 8 0, key.getD 9 0, key.getD 10 0, key.getD 11 0]
  let w3 := [key.getD 12 0, key.getD 13 0, key.getD 14 0, key.getD 15 0]
  let ws := expandWords 40 [w0, w1, w2, w3]
  (List.range 11).map fun j => ((ws.drop (4 * j)).take 4).flatten

/-- InvSubBytes on a flat 16-byte state. -/
def invSubBytes (s : List Nat) : List Nat := s.map isb

/-- InvShiftRows on a flat 16-byte state in column-major (standard AES
input) order. -/
def invShiftRows (s : List Nat) : List Nat :=
  [s.getD 0 0, s.getD 13 0, s.getD 10 0, s.getD 7 0,
   s.getD 4 0, s.getD 1 0, s.getD 14 0, s.getD 11 0,
   s.getD 8 0, s.getD 5 0, s.getD 2 0, s.getD 15 0,
   s.getD 12 0, s.getD 9 0, s.getD 6 0, s.getD 3 0]

/-- InvMixColumns on a single column. -/
def invMixCol (a b c d : Nat) : List Nat :=
  [mul14 a ^^^ mul11 b ^^^ mul13 c ^^^ mul9 d,
   mul9 a ^^^ mul14 b ^^^ mul11 c ^^^ mul13 d,
   mul13 a ^^^ mul9 b ^^^ mul14 c ^^^ mul11 d,
   mul11 a ^^^ mul13 b ^^^ mul9 c ^^^ mul14 d]

/-- InvMixColumns on a flat 16-byte state. -/
def invMixColumns (s : List Nat) : List Nat :=
  invMixCol (s.getD 0 0) (s.getD 1 0) (s.getD 2 0) (s.getD 3 0) ++
  invMixCol (s.getD 4 0) (s.getD 5 0) (s.getD 6 0) (s.getD 7 0) ++
  invMixCol (s.getD 8 0) (s.getD 9 0) (s.getD 10 0) (s.getD 11 0) ++
  invMixCol (s.getD 12 0) (s.getD 13 0) (s.getD 14 0) (s.getD 15 0)

/-- One full inverse round (InvShiftRows, InvSubBytes, AddRoundKey,
InvMixColumns). -/
def invRound (rk s : List Nat) : List Nat :=
  invMixColumns (zipXor (invSubBytes (invShiftRows s)) rk)

/-- The final inverse round (no InvMixColumns). -/
def invFinal (rk s : List Nat) : List Nat :=
  zipXor (invSubBytes (invShiftRows s)) rk

/-- AES-128 single-block decryption (FIPS-197 InvCipher). This embeds the
`block.Decrypt` call of Go's `crypto/aes` used in `DecryptProximityPayload`. -/
def aes128Decrypt (key ct : List Nat) : List Nat :=
  let rks := roundKeys key
  let s0 := zipXor ct (rks.getD 10 [])
  let s9 := [9, 8, 7, 6, 5, 4, 3, 2, 1].foldl (fun st r => invRound (rks.getD r []) st) s0
  invFinal (rks.getD 0 []) s9

/-- The distinct error sites of Go `DecryptProximityPayload`. The
`aes.NewCipher` error site is unreachable once the 16-byte key check has
passed, so it has no constructor. -/
inductive DecryptError where
  | dataLengthMismatch
  | keyLengthMismatch
  | validationFailed
  deriving Repr, DecidableEq

/-- Embedding of Go `DecryptProximityPayload` (internal/ble): AES-decrypt
the 16-byte encrypted portion of an advertisement and validate the result
against the two known magic constraints (upper nibble of byte 0 is zero,
byte 4 is `0x2D`). -/
def DecryptProximityPayload (encryptedData key : List Nat) : Except DecryptError (List Nat) :=
  if encryptedData.length ≠ 16 then .error .dataLengthMismatch
  else if key.length ≠ 16 then .error .keyLengthMismatch
  else
    let decrypted := aes128Decrypt key encryptedData
    if decrypted.length ≥ 5 ∧ ((decrypted.getD 0 0 &&& 0xF0) ≠ 0 ∨ decrypted.getD 4 0 ≠ 0x2D) then
      .error .validationFailed
    else .ok decrypted

/-- The single `fmt.Errorf` site of Go `AddDecryptedData`. -/
inductive DecryptedDataError where
  | wrongLength
  deriving Repr, DecidableEq

/-- Embedding of the Go method `(*ProximityData).AddDecryptedData`
(internal/ble): merge a decrypted 16-byte block into a parsed record,
overwriting the nibble-precision battery fields with the 1%-precision
decrypted values (levels above 100 become absent). -/
def AddDecryptedData (pd : ProximityData) (decrypted : List Nat) : Except DecryptedDataError ProximityData :=
  if decrypted.length ≠ 16 then .error .wrongLength
  else
    let pd1 := { pd with HasDecrypted := true, RawDecrypted := decrypted }
    if decrypted.length ≥ 4 then
      let byte1 := decrypted.getD 1 0
      let charging1 := (byte1 &&& 0x80) != 0
      let battery1 := byte1 &&& 0x7F
      let byte2 := decrypted.getD 2 0
      let charging2 := (byte2 &&& 0x80) != 0
      let battery2 := byte2 &&& 0x7F
      let byte3 := decrypted.getD 3 0
      let caseCharging := (byte3 &&& 0x80) != 0
      let caseBattery := byte3 &&& 0x7F
      let bat1Ptr := if battery1 ≤ 100 then some battery1 else none
      let bat2Ptr := if battery2 ≤ 100 then some battery2 else none
      let pd2 :=
        if pd.IsFlipped then
          { pd1 with LeftBattery := bat2Ptr, RightBattery := bat1Ptr,
                     LeftCharging := charging2, RightCharging := charging1 }
        else
          { pd1 with LeftBattery := bat1Ptr, RightBattery := bat2Ptr,
                     LeftCharging := charging1, RightCharging := charging2 }
      let pd3 :=
        if caseBattery ≤ 100 then
          { pd2 with CaseBattery := some caseBattery, CaseCharging := caseCharging }
        else
          { pd2 with CaseBattery := none }
      .ok pd3
    else .ok pd1

end ble

namespace aap

/-- Embedding of the Go struct `Battery` (internal/aap): one battery
component record. `Component` carries the Go `BatteryComponent` code
(2 = Right, 4 = Left, 8 = Case), `Status` the Go `BatteryStatus` code
(0 = Unknown, 1 = Charging, 2 = Discharging, 4 = Disconnected). -/
structure Battery where
  Component : Nat
  Level : Nat
  Status : Nat
  deriving Repr, DecidableEq

/-- Go constant `StatusCharging BatteryStatus = 1`. -/
def StatusCharging : Nat := 1

/-- Embedding of the Go struct `BatteryInfo` (internal/aap). -/
structure BatteryInfo where
  Left : Option Battery := none
  Right : Option Battery := none
  Case : Option Battery := none
  deriving Repr, DecidableEq

/-- The distinct `fmt.Errorf` sites of Go `ParseBatteryPacket`. -/
inductive BatteryParseError where
  | tooShort
  | notBatteryPacket
  | incompleteData
  deriving Repr, DecidableEq

/-- The record loop of Go `ParseBatteryPacket`: read `n` five-byte
records `[component, 01, level, status, 01]` starting at `offset`,
assigning each into the matching component slot (unknown component codes
are skipped). -/
def parseBatteryRecords : Nat → Nat → List Nat → BatteryInfo → Except BatteryParseError BatteryInfo
  | 0, _, _, info => .ok info
  | n + 1, offset, packet, info =>
      if offset + 5 > packet.length then .error .incompleteData
      else
        let component := packet.getD offset 0
        let level := packet.getD (offset + 2) 0
        let status := packet.getD (offset + 3) 0
        let battery : Battery := ⟨component, level, status⟩
        let info2 :=
          if component == 4 then { info with Left := some battery }
          else if component == 2 then { info with Right := some battery }
          else if component == 8 then { info with Case := some battery }
          else info
        parseBatteryRecords n (offset + 5) packet info2

/-- Embedding of Go `ParseBatteryPacket` (internal/aap): parse a battery
status packet `04 00 04 00 04 00 [count] ([component] 01 [level] [status] 01)...`. -/
def ParseBatteryPacket (packet : List Nat) : Except BatteryParseError BatteryInfo :=
  if packet.length < 7 then .error .tooShort
  else if packet.getD 0 0 ≠ 0x04 ∨ packet.getD 1 0 ≠ 0x00 ∨
          packet.getD 2 0 ≠ 0x04 ∨ packet.getD 3 0 ≠ 0x00 ∨
          packet.getD 4 0 ≠ 0x04 ∨ packet.getD 5 0 ≠ 0x00 then .error .notBatteryPacket
  else parseBatteryRecords (packet.getD 6 0) 7 packet {}

/-- Modelled from the spec: the classifier `aap.IsBatteryPacket` is called
by the coordinator's AAP read loop but its definition is not among the
provided sources. Per the spec, "a packet is a battery packet iff it is
>= 7 octets and the first seven octets equal 04 00 04 00 04 00 count". -/
def IsBatteryPacket (packet : List Nat) : Bool :=
  decide (packet.length ≥ 7) &&
  (packet.getD 0 0 == 0x04) && (packet.getD 1 0 == 0x00) &&
  (packet.getD 2 0 == 0x04) && (packet.getD 3 0 == 0x00) &&
  (packet.getD 4 0 == 0x04) && (packet.getD 5 0 == 0x00)

end aap

namespace podstate

/-- Embedding of the Go type `DataSource` (internal/podstate). -/
inductive DataSource where
  | Unknown
  | BLE
  | AAP
  deriving Repr, DecidableEq

/-- Embedding of the Go type `PodSide` (internal/podstate). -/
inductive PodSide where
  | PodSideUnknown
  | PodSideLeft
  | PodSideRight
  deriving Repr, DecidableEq

/-- Hexadecimal digits, for `DecodeModelName`'s `%04X` fallback. -/
def hexChars : List Char :=
  ['0', '1', '2', '3', '4', '5', '6', '7', '8', '9', 'A', 'B', 'C', 'D', 'E', 'F']

/-- Four-digit uppercase hexadecimal rendering of a 16-bit value,
mirroring Go's `fmt.Sprintf("%04X", ...)` on a `uint16`. -/
def hex4 (n : Nat) : String :=
  String.mk [hexChars.getD (n / 4096 % 16) '0', hexChars.getD (n / 256 % 16) '0',
             hexChars.getD (n / 16 % 16) '0', hexChars.getD (n % 16) '0']

/-- Embedding of the Go struct `PodState` used by the coordinator
(internal/podstate). The fields through `RawData` appear in the version of
the struct among the provided sources; the identity/key fields
(`ModelName`, `RealMac`, `CurrentBLEMac`, `EncryptionKey`) are modelled
from the spec (PodState, section 3.4) and from their uses in
`bleToState` / `aapToState`, as the extended struct definition itself is
not among the provided sources. Defaults mirror Go zero values. -/
structure PodState where
  Source : DataSource := .Unknown
  LeftBattery : Option Nat := none
  RightBattery : Option Nat := none
  CaseBattery : Option Nat := none
  LeftCharging : Bool := false
  RightCharging : Bool := false
  CaseCharging : Bool := false
  LeftInEar : Bool := false
  RightInEar : Bool := false
  LidOpen : Bool := false
  DeviceModel : Nat := 0
  ModelName : String := ""
  Color : Nat := 0
  PrimaryPod : PodSide := .PodSideUnknown
  RealMac : String := ""
  CurrentBLEMac : String := ""
  EncryptionKey : Option (List Nat) := none
  RawData : List Nat := []
  deriving Repr, DecidableEq

/-- Embedding of Go `DecodeModelName` (internal/ble). -/
def DecodeModelName (deviceModel : Nat) : String :=
  if deviceModel == 0x0220 then "AirPods (2nd gen)"
  else if deviceModel == 0x0e20 then "AirPods Pro"
  else if deviceModel == 0x2420 then "AirPods Pro (2nd gen)"
  else if deviceModel == 0x2720 then "AirPods Pro 3"
  else "Unknown (0x" ++ hex4 deviceModel ++ ")"

/-- The mutable fields of the Go struct `PodStateCoordinator`
(internal/podstate) that the pure state transitions touch. `deviceStates`
(a Go map) is a function from MAC to optional state; `encryptionKeys` is
an association list in the iteration order of the Go map. The scanner/
client handles, callbacks and lock are not modelled. -/
structure PodStateCoordinator where
  deviceStates : String → Option PodState
  aapConnected : Bool := false
  aapMacAddr : String := ""
  encryptionKeys : List (String × List Nat) := []

/-- Lookup in the modelled `encryptionKeys` map. -/
def lookupKey (keys : List (String × List Nat)) (mac : String) : Option (List Nat) :=
  (keys.find? fun p => p.1 == mac).map Prod.snd

/-- Embedding of the Go method `bleToState` (internal/podstate): convert a
BLE `ProximityData` to a `PodState`, tagging it with the resolved real MAC
and the observed (possibly randomized) BLE MAC, and attaching the stored
encryption key for the real MAC when present. -/
def bleToState (encryptionKeys : List (String × List Nat)) (data : ble.ProximityData)
    (realMac bleMac : String) : PodState :=
  { Source := .BLE
    LeftBattery := data.LeftBattery
    RightBattery := data.RightBattery
    CaseBattery := data.CaseBattery
    LeftCharging := data.LeftCharging
    RightCharging := data.RightCharging
    CaseCharging := data.CaseCharging
    LeftInEar := data.LeftInEar
    RightInEar := data.RightInEar
    LidOpen := data.LidOpen
    DeviceModel := data.DeviceModel
    ModelName := DecodeModelName data.DeviceModel
    Color := data.Color
    PrimaryPod := if data.IsFlipped then .PodSideRight else .PodSideLeft
    RealMac := realMac
    CurrentBLEMac := bleMac
    EncryptionKey := lookupKey encryptionKeys realMac
    RawData := data.RawData }

/-- Embedding of the Go helper `getBatteryFromAAP` (internal/podstate):
convert one AAP battery component to a `PodState` level/charging pair.
Note the level is passed through unchanged. -/
def getBatteryFromAAP (battery : Option aap.Battery) : Option Nat × Bool :=
  match battery with
  | some b => (some b.Level, b.Status == aap.StatusCharging)
  | none => (none, false)

/-- Embedding of the Go method `aapToState` (internal/podstate): convert
AAP battery info to a `PodState` under the connected device's real MAC. -/
def aapToState (encryptionKeys : List (String × List Nat)) (info : aap.BatteryInfo)
    (rawPacket : List Nat) (macAddr : String) : PodState :=
  let l := getBatteryFromAAP info.Left
  let r := getBatteryFromAAP info.Right
  let c := getBatteryFromAAP info.Case
  { Source := .AAP
    RealMac := macAddr
    RawData := rawPacket
    LeftBattery := l.1
    LeftCharging := l.2
    RightBattery := r.1
    RightCharging := r.2
    CaseBattery := c.1
    CaseCharging := c.2
    EncryptionKey := lookupKey encryptionKeys macAddr }

/-- The encrypted-portion extraction at the top of the Go method
`tryDecryptAndIdentify` (internal/podstate): `none` when the payload is
shorter than 25 octets, otherwise octets `9..24` (`RawData[9:25]`). -/
def encryptedPortion (data : ble.ProximityData) : Option (List Nat) :=
  if data.RawData.length < 25 then none
  else some ((data.RawData.drop 9).take 16)

/-- The key-trial loop of the Go method `tryDecryptAndIdentify`: try each
stored key against the encrypted portion; on the first key whose
decryption validates and merges, return that key's real MAC and the merged
record; otherwise fall back to the observed random MAC. -/
def tryKeys : List (String × List Nat) → List Nat → ble.ProximityData → String →
    String × ble.ProximityData
  | [], _, data, randomMac => (randomMac, data)
  | (realMac, key) :: rest, portion, data, randomMac =>
      match ble.DecryptProximityPayload portion key with
      | .error _ => tryKeys rest portion data randomMac
      | .ok decrypted =>
          match ble.AddDecryptedData data decrypted with
          | .ok newData => (realMac, newData)
          | .error _ => tryKeys rest portion data randomMac

/-- Embedding of the Go method `tryDecryptAndIdentify`
(internal/podstate). In Go the record is mutated in place by
`AddDecryptedData`; the model returns the (possibly) merged record
alongside the resolved MAC. -/
def tryDecryptAndIdentify (keys : List (String × List Nat)) (data : ble.ProximityData)
    (randomMac : String) : String × ble.ProximityData :=
  match encryptedPortion data with
  | none => (randomMac, data)
  | some portion => tryKeys keys portion data randomMac

/-- Embedding of the Go method `handleStateUpdate` (internal/podstate):
store the state under the given MAC. The callback fan-out is not
modelled. -/
def handleStateUpdate (m : PodStateCoordinator) (macAddr : String) (state : PodState) :
    PodStateCoordinator :=
  { m with deviceStates := fun a => if a == macAddr then some state else m.deviceStates a }

/-- Embedding of one iteration of the Go method `bleUpdateLoop`
(internal/podstate): when an AAP session is connected the scan is skipped
entirely; otherwise a successful scan result (parsed record and observed
random MAC) is identified via key trial, converted and stored. `scan` is
`none` when `ScanForAirPods` returned an error (timeout). -/
def bleUpdateStep (m : PodStateCoordinator) (scan : Option (ble.ProximityData × String)) :
    PodStateCoordinator :=
  if m.aapConnected then m
  else
    match scan with
    | none => m
    | some (data, randomMac) =>
        let idres := tryDecryptAndIdentify m.encryptionKeys data randomMac
        let state := bleToState m.encryptionKeys idres.2 idres.1 randomMac
        handleStateUpdate m idres.1 state

end podstate

/-! ## Specification-side predicates and helper lemmas -/

/-- A stored optional battery level is in range (absent, or at most 100). -/
def batteryOk (o : Option Nat) : Prop := ∀ v, o = some v → v ≤ 100

/-- All three battery fields of a parsed proximity record are in range. -/
def recordLevelsOk (pd : ble.ProximityData) : Prop :=
  batteryOk pd.LeftBattery ∧ batteryOk pd.RightBattery ∧ batteryOk pd.CaseBattery

/-- All three battery fields of a `PodState` are in range. -/
def stateLevelsOk (s : podstate.PodState) : Prop :=
  batteryOk s.LeftBattery ∧ batteryOk s.RightBattery ∧ batteryOk s.CaseBattery

/-- The decrypted-byte level decoder as performed by `AddDecryptedData`:
low seven bits, normalized to absent above 100. -/
def decryptedLevel (b : Nat) : Option Nat :=
  if b &&& 0x7F ≤ 100 then some (b &&& 0x7F) else none

/-- The decrypted-byte charging decoder as performed by
`AddDecryptedData`: bit 7. -/
def decryptedCharging (b : Nat) : Bool := (b &&& 0x80) != 0

theorem DecodeBattery_batteryOk (n : Nat) : batteryOk (ble.DecodeBattery n) := by
  intro v hv
  unfold ble.DecodeBattery at hv
  split at hv
  · next hn =>
      have : n * 10 % 256 = n * 10 := Nat.mod_eq_of_lt (by omega)
      simp only [Option.some.injEq] at hv
      omega
  · split at hv
    · simp only [Option.some.injEq] at hv
      omega
    · cases hv

theorem decryptedLevel_batteryOk (b : Nat) : batteryOk (decryptedLevel b) := by
  intro v hv
  unfold decryptedLevel at hv
  split at hv
  · next hb => simp only [Option.some.injEq] at hv; omega
  · cases hv

/-- Full characterization of a successful `AddDecryptedData` merge: the
input had 16 bytes, the pod battery/charging fields are the decrypted
byte-1/byte-2 decodes assigned per the flip status, the case battery is
the byte-3 decode, and the case charging flag is overwritten only when the
byte-3 level is valid. -/
theorem AddDecryptedData_spec (pd : ble.ProximityData) (d : List Nat) (pd2 : ble.ProximityData)
    (h : ble.AddDecryptedData pd d = .ok pd2) :
    d.length = 16 ∧
    pd2.LeftBattery = (if pd.IsFlipped then decryptedLevel (d.getD 2 0) else decryptedLevel (d.getD 1 0)) ∧
    pd2.RightBattery = (if pd.IsFlipped then decryptedLevel (d.getD 1 0) else decryptedLevel (d.getD 2 0)) ∧
    pd2.LeftCharging = (if pd.IsFlipped then decryptedCharging (d.getD 2 0) else decryptedCharging (d.getD 1 0)) ∧
    pd2.RightCharging = (if pd.IsFlipped then decryptedCharging (d.getD 1 0) else decryptedCharging (d.getD 2 0)) ∧
    pd2.CaseBattery = decryptedLevel (d.getD 3 0) ∧
    pd2.CaseCharging = (if d.getD 3 0 &&& 0x7F ≤ 100 then decryptedCharging (d.getD 3 0) else pd.CaseCharging) ∧
    pd2.HasDecrypted = true ∧
    pd2.RawDecrypted = d ∧
    pd2.IsFlipped = pd.IsFlipped ∧
    pd2.RawData = pd.RawData := by
  unfold ble.AddDecryptedData at h
  split at h
  · cases h
  next hlen =>
    rw [if_pos (by omega)] at h
    injection h with h2
    subst h2
    refine ⟨by omega, ?_⟩
    by_cases hf : pd.IsFlipped <;>
      by_cases hc : d.getD 3 0 &&& 0x7F ≤ 100 <;>
        rw [List.getD_eq_getElem?_getD] at hc <;>
        simp [hf, hc, decryptedLevel, decryptedCharging, List.getD_eq_getElem?_getD]

/-- `AddDecryptedData` succeeds exactly on 16-byte inputs. -/
theorem AddDecryptedData_ok_iff (pd : ble.ProximityData) (d : List Nat) :
    (∃ pd2, ble.AddDecryptedData pd d = .ok pd2) ↔ d.length = 16 := by
  constructor
  · rintro ⟨pd2, h⟩
    exact (AddDecryptedData_spec pd d pd2 h).1
  · intro hlen
    unfold ble.AddDecryptedData
    rw [if_neg (by omega), if_pos (by omega)]
    exact ⟨_, rfl⟩


/-- Battery fields of a successfully parsed proximity record are decoded
nibbles (or absent for the case battery on a short payload). -/
theorem ParseProximityData_ok_batteries (data : List Nat) (pd : ble.ProximityData)
    (h : ble.ParseProximityData data = .ok pd) :
    (∃ n, pd.LeftBattery = ble.DecodeBattery n) ∧
    (∃ n, pd.RightBattery = ble.DecodeBattery n) ∧
    (pd.CaseBattery = none ∨ ∃ n, pd.CaseBattery = ble.DecodeBattery n) := by
  unfold ble.ParseProximityData at h
  dsimp only at h
  split at h
  · cases h
  split at h
  · cases h
  split at h
  · cases h
  split at h
  · cases h
  split at h
  · cases h
  injection h with h2
  subst h2
  refine ⟨⟨_, rfl⟩, ⟨_, rfl⟩, ?_⟩
  dsimp only
  split
  · exact Or.inr ⟨_, rfl⟩
  · exact Or.inl rfl

/-- A successfully parsed proximity record has in-range battery fields. -/
theorem ParseProximityData_ok_levelsOk (data : List Nat) (pd : ble.ProximityData)
    (h : ble.ParseProximityData data = .ok pd) : recordLevelsOk pd := by
  obtain ⟨⟨n1, h1⟩, ⟨n2, h2⟩, h3⟩ := ParseProximityData_ok_batteries data pd h
  refine ⟨by rw [h1]; exact DecodeBattery_batteryOk n1,
          by rw [h2]; exact DecodeBattery_batteryOk n2, ?_⟩
  rcases h3 with h3 | ⟨n3, h3⟩
  · intro v hv
    rw [h3] at hv
    cases hv
  · rw [h3]
    exact DecodeBattery_batteryOk n3

/-- A successful decrypted merge yields in-range battery fields. -/
theorem AddDecryptedData_ok_levelsOk (pd : ble.ProximityData) (d : List Nat)
    (pd2 : ble.ProximityData) (h : ble.AddDecryptedData pd d = .ok pd2) :
    recordLevelsOk pd2 := by
  obtain ⟨-, hL, hR, -, -, hC, -⟩ := AddDecryptedData_spec pd d pd2 h
  refine ⟨?_, ?_, ?_⟩
  · rw [hL]
    split <;> exact decryptedLevel_batteryOk _
  · rw [hR]
    split <;> exact decryptedLevel_batteryOk _
  · rw [hC]
    exact decryptedLevel_batteryOk _

/-- The key-trial loop returns either the record unchanged or a record
produced by a successful decrypted merge; in-range battery fields are
preserved either way. -/
theorem tryKeys_levelsOk (keys : List (String × List Nat)) (portion : List Nat)
    (pd : ble.ProximityData) (randomMac : String) (h : recordLevelsOk pd) :
    recordLevelsOk (podstate.tryKeys keys portion pd randomMac).2 := by
  induction keys with
  | nil => exact h
  | cons kv rest ih =>
      obtain ⟨realMac, key⟩ := kv
      rw [podstate.tryKeys]
      rcases hdec : ble.DecryptProximityPayload portion key with e | decrypted
      · exact ih
      · dsimp only
        rcases hadd : ble.AddDecryptedData pd decrypted with e | newData
        · exact ih
        · exact AddDecryptedData_ok_levelsOk pd decrypted newData hadd

/-- `tryDecryptAndIdentify` preserves in-range battery fields. -/
theorem tryDecryptAndIdentify_levelsOk (keys : List (String × List Nat))
    (pd : ble.ProximityData) (randomMac : String) (h : recordLevelsOk pd) :
    recordLevelsOk (podstate.tryDecryptAndIdentify keys pd randomMac).2 := by
  unfold podstate.tryDecryptAndIdentify
  rcases hport : podstate.encryptedPortion pd with - | portion
  · exact h
  · exact tryKeys_levelsOk keys portion pd randomMac h

/-- `bleToState` copies the record's battery fields unchanged. -/
theorem bleToState_batteries (keys : List (String × List Nat)) (pd : ble.ProximityData)
    (realMac bleMac : String) :
    (podstate.bleToState keys pd realMac bleMac).LeftBattery = pd.LeftBattery ∧
    (podstate.bleToState keys pd realMac bleMac).RightBattery = pd.RightBattery ∧
    (podstate.bleToState keys pd realMac bleMac).CaseBattery = pd.CaseBattery :=
  ⟨rfl, rfl, rfl⟩

theorem zipXor_length (a b : List Nat) : (ble.zipXor a b).length = min a.length b.length := by
  simp [ble.zipXor]

theorem invShiftRows_length (s : List Nat) : (ble.invShiftRows s).length = 16 := by
  simp [ble.invShiftRows]

theorem invSubBytes_length (s : List Nat) : (ble.invSubBytes s).length = s.length := by
  simp [ble.invSubBytes]

theorem rotWord_length (w : List Nat) : (ble.rotWord w).length = w.length := by
  simp [ble.rotWord]
  omega

theorem subWord_length (w : List Nat) : (ble.subWord w).length = w.length := by
  simp [ble.subWord]

theorem expandWords_length (n : Nat) (ws : List (List Nat)) :
    (ble.expandWords n ws).length = ws.length + n := by
  induction n generalizing ws with
  | zero => rfl
  | succ k ih =>
      rw [ble.expandWords, ih]
      simp
      omega

theorem expandWords_mem (n : Nat) (ws : List (List Nat))
    (hmem : ∀ w ∈ ws, w.length = 4) (hlen : 4 ≤ ws.length) :
    ∀ w ∈ ble.expandWords n ws, w.length = 4 := by
  induction n generalizing ws with
  | zero => exact hmem
  | succ k ih =>
      rw [ble.expandWords]
      have hprev : (ws.getD (ws.length - 1) []).length = 4 := by
        apply hmem
        rw [List.getD_eq_getElem ws [] (by omega)]
        exact List.getElem_mem _
      have hw4 : (ws.getD (ws.length - 4) []).length = 4 := by
        apply hmem
        rw [List.getD_eq_getElem ws [] (by omega)]
        exact List.getElem_mem _
      have htlen : (if ws.length % 4 == 0 then
          match ble.subWord (ble.rotWord (ws.getD (ws.length - 1) [])) with
          | a :: rest => (a ^^^ ble.rconTable.getD (ws.length / 4 - 1) 0) :: rest
          | [] => []
        else ws.getD (ws.length - 1) []).length = 4 := by
        split
        · rcases hsw : ble.subWord (ble.rotWord (ws.getD (ws.length - 1) [])) with - | ⟨a, rest⟩
          · exfalso
            have := subWord_length (ble.rotWord (ws.getD (ws.length - 1) []))
            rw [hsw, rotWord_length, hprev] at this
            simp at this
          · have := subWord_length (ble.rotWord (ws.getD (ws.length - 1) []))
            rw [hsw, rotWord_length, hprev] at this
            simpa using this
        · exact hprev
      apply ih
      · intro w hw
        rcases List.mem_append.mp hw with hw | hw
        · exact hmem w hw
        · simp only [List.mem_singleton] at hw
          subst hw
          rw [zipXor_length, hw4, htlen]
          omega
      · simp
        omega

theorem flatten_length_of_forall (l : List (List Nat)) (h : ∀ x ∈ l, x.length = 4) :
    l.flatten.length = 4 * l.length := by
  induction l with
  | nil => rfl
  | cons x xs ih =>
      simp only [List.flatten_cons, List.length_append, List.length_cons]
      rw [h x (by simp), ih (fun y hy => h y (by simp [hy]))]
      ring

theorem roundKeys_mem_length (key : List Nat) : ∀ rk ∈ ble.roundKeys key, rk.length = 16 := by
  intro rk hrk
  unfold ble.roundKeys at hrk
  simp only [List.mem_map, List.mem_range] at hrk
  obtain ⟨j, hj, hrk⟩ := hrk
  subst hrk
  set ws := ble.expandWords 40 [[key.getD 0 0, key.getD 1 0, key.getD 2 0, key.getD 3 0],
    [key.getD 4 0, key.getD 5 0, key.getD 6 0, key.getD 7 0],
    [key.getD 8 0, key.getD 9 0, key.getD 10 0, key.getD 11 0],
    [key.getD 12 0, key.getD 13 0, key.getD 14 0, key.getD 15 0]] with hws
  have hwslen : ws.length = 44 := by
    rw [hws, expandWords_length]
    rfl
  have hwsmem : ∀ w ∈ ws, w.length = 4 := by
    rw [hws]
    apply expandWords_mem
    · intro w hw
      simp only [List.mem_cons, List.not_mem_nil, or_false] at hw
      rcases hw with h | h | h | h <;> (subst h; rfl)
    · simp
  have htake : ((ws.drop (4 * j)).take 4).length = 4 := by
    rw [List.length_take, List.length_drop, hwslen]
    omega
  rw [flatten_length_of_forall _ (fun x hx => hwsmem x
    (List.mem_of_mem_drop (List.mem_of_mem_take hx))), htake]

theorem roundKeys_length (key : List Nat) : (ble.roundKeys key).length = 11 := by
  unfold ble.roundKeys
  simp

theorem roundKeys_getD_length (key : List Nat) (j : Nat) (hj : j < 11) :
    ((ble.roundKeys key).getD j []).length = 16 := by
  apply roundKeys_mem_length
  rw [List.getD_eq_getElem (ble.roundKeys key) [] (by rw [roundKeys_length]; omega)]
  exact List.getElem_mem _

theorem aes128Decrypt_length (key ct : List Nat) : (ble.aes128Decrypt key ct).length = 16 := by
  unfold ble.aes128Decrypt ble.invFinal
  rw [zipXor_length, invSubBytes_length, invShiftRows_length,
    roundKeys_getD_length key 0 (by omega)]
  omega

theorem DecryptProximityPayload_ok (ct key out : List Nat)
    (h : ble.DecryptProximityPayload ct key = .ok out) :
    out = ble.aes128Decrypt key ct ∧ out.length = 16 ∧ ct.length = 16 ∧ key.length = 16 := by
  unfold ble.DecryptProximityPayload at h
  split at h
  · cases h
  split at h
  · cases h
  dsimp only at h
  split at h
  · cases h
  injection h with h2
  subst h2
  refine ⟨rfl, aes128Decrypt_length key ct, by omega, by omega⟩


theorem primaryLeftBit_eq_mask : ∀ x : Fin 256,
    ble.primaryLeftBit x.val = decide (x.val &&& 0x20 ≠ 0) := by decide

theorem inCaseBit_eq_mask : ∀ x : Fin 256,
    ble.inCaseBit x.val = decide (x.val &&& 0x40 ≠ 0) := by decide

theorem ParseProximityData_ok_flip_nibbles (data : List Nat) (pd : ble.ProximityData)
    (h : ble.ParseProximityData data = .ok pd) :
    pd.Status = ((data.drop 2).take (data.getD 1 0)).getD 3 0 ∧
    pd.IsFlipped = !ble.primaryLeftBit pd.Status ∧
    pd.LeftBattery = ble.DecodeBattery (if pd.IsFlipped
      then ((data.drop 2).take (data.getD 1 0)).getD 4 0 &&& 0x0F
      else (((data.drop 2).take (data.getD 1 0)).getD 4 0 >>> 4) &&& 0x0F) ∧
    pd.RightBattery = ble.DecodeBattery (if pd.IsFlipped
      then (((data.drop 2).take (data.getD 1 0)).getD 4 0 >>> 4) &&& 0x0F
      else ((data.drop 2).take (data.getD 1 0)).getD 4 0 &&& 0x0F) := by
  unfold ble.ParseProximityData at h
  dsimp only at h
  split at h
  · cases h
  split at h
  · cases h
  split at h
  · cases h
  split at h
  · cases h
  split at h
  · cases h
  injection h with h2
  subst h2
  exact ⟨rfl, rfl, rfl, rfl⟩

theorem tryKeys_cons_error (realMac : String) (key : List Nat) (rest : List (String × List Nat))
    (portion : List Nat) (pd : ble.ProximityData) (randomMac : String) (e : ble.DecryptError)
    (h : ble.DecryptProximityPayload portion key = .error e) :
    podstate.tryKeys ((realMac, key) :: rest) portion pd randomMac =
      podstate.tryKeys rest portion pd randomMac := by
  rw [podstate.tryKeys, h]

theorem tryKeys_cons_ok (realMac : String) (key : List Nat) (rest : List (String × List Nat))
    (portion : List Nat) (pd pd2 : ble.ProximityData) (randomMac : String) (out : List Nat)
    (h1 : ble.DecryptProximityPayload portion key = .ok out)
    (h2 : ble.AddDecryptedData pd out = .ok pd2) :
    podstate.tryKeys ((realMac, key) :: rest) portion pd randomMac = (realMac, pd2) := by
  rw [podstate.tryKeys, h1]
  dsimp only
  rw [h2]

theorem handleStateUpdate_self (m : podstate.PodStateCoordinator) (mac : String)
    (state : podstate.PodState) :
    (podstate.handleStateUpdate m mac state).deviceStates mac = some state := by
  unfold podstate.handleStateUpdate
  simp

theorem bleUpdateStep_not_connected (m : podstate.PodStateCoordinator)
    (h : m.aapConnected = false) (data : ble.ProximityData) (randomMac : String) :
    podstate.bleUpdateStep m (some (data, randomMac)) =
      podstate.handleStateUpdate m (podstate.tryDecryptAndIdentify m.encryptionKeys data randomMac).1
        (podstate.bleToState m.encryptionKeys
          (podstate.tryDecryptAndIdentify m.encryptionKeys data randomMac).2
          (podstate.tryDecryptAndIdentify m.encryptionKeys data randomMac).1 randomMac) := by
  unfold podstate.bleUpdateStep
  rw [h]
  rfl

/-! ## Concrete inputs for claim theorems, witnesses and counterexamples -/

/-- The spec's Scenario 4 AAP battery packet. -/
def scenario4Packet : List Nat :=
  [0x04, 0x00, 0x04, 0x00, 0x04, 0x00, 0x03,
   0x04, 0x01, 0x5A, 0x02, 0x01,
   0x02, 0x01, 0x32, 0x02, 0x01,
   0x08, 0x01, 0x46, 0x01, 0x01]

/-- A well-formed AAP battery packet whose single record carries the
out-of-range level byte `0xFF`. -/
def levelFFPacket : List Nat :=
  [0x04, 0x00, 0x04, 0x00, 0x04, 0x00, 0x01, 0x04, 0x01, 0xFF, 0x02, 0x01]

/-- A minimal valid advertisement with status byte `s` at payload offset 3
and battery byte `b` at payload offset 4. -/
def mkStatusBatteryAdv (s b : Nat) : List Nat :=
  [0x07, 10, 0x01, 0, 0, s, b, 0, 0, 0, 0, 0]

/-- The parse result of `mkStatusBatteryAdv 11 153`. -/
def pdC6 : ble.ProximityData :=
  { DeviceModel := 0, Status := 11, LeftBattery := some 90, RightBattery := some 90,
    CaseBattery := some 0, LeftCharging := false, RightCharging := false,
    CaseCharging := false, LeftInEar := true, RightInEar := true, LidOpen := true,
    Color := 0, ConnectionState := 0, IsFlipped := true,
    RawData := [1, 0, 0, 11, 153, 0, 0, 0, 0, 0], HasDecrypted := false, RawDecrypted := [] }

/-- An advertisement whose declared payload length is 26 (one more than
the usual 25), with pairwise distinct payload bytes after the prefix. -/
def adv26 : List Nat :=
  [0x07, 26, 0x01, 1, 2, 3, 4, 5, 6, 7, 8, 9, 10, 11, 12, 13, 14, 15, 16, 17,
   18, 19, 20, 21, 22, 23, 24, 25]

/-- Payload octets 9..24 of `adv26` (what the coordinator extracts). -/
def adv26Portion : List Nat := [9, 10, 11, 12, 13, 14, 15, 16, 17, 18, 19, 20, 21, 22, 23, 24]

/-- The last 16 payload octets of `adv26` (what the spec describes). -/
def adv26Last : List Nat := [10, 11, 12, 13, 14, 15, 16, 17, 18, 19, 20, 21, 22, 23, 24, 25]

/-! ## Claim theorems -/

/-- C7: for every 4-bit nibble `n`, the battery-nibble decoder returns
`10 * n` for `n` in `0..9`, returns `100` for `n` in `0xA..0xE`, and
returns absent for `0xF`; its range is `{absent} ∪ {0, 10, ..., 90, 100}`
(every returned value is a multiple of 10 and at most 100). -/
theorem c7_decode_battery_nibble (n : Nat) (h : n < 16) :
    (n ≤ 9 → ble.DecodeBattery n = some (10 * n)) ∧
    (0xA ≤ n → n ≤ 0xE → ble.DecodeBattery n = some 100) ∧
    (n = 0xF → ble.DecodeBattery n = none) ∧
    ((ble.DecodeBattery n).all fun v => decide (v % 10 = 0) && decide (v ≤ 100)) = true := by
  have H : ∀ x : Fin 16,
      ((x : Nat) ≤ 9 → ble.DecodeBattery (x : Nat) = some (10 * (x : Nat))) ∧
      (0xA ≤ (x : Nat) → (x : Nat) ≤ 0xE → ble.DecodeBattery (x : Nat) = some 100) ∧
      ((x : Nat) = 0xF → ble.DecodeBattery (x : Nat) = none) ∧
      ((ble.DecodeBattery (x : Nat)).all fun v => decide (v % 10 = 0) && decide (v ≤ 100)) = true := by
    decide
  exact H ⟨n, h⟩

/-- C7 witness: the decoder evaluated at the concrete nibbles 5 and 15. -/
theorem c7_witness : ble.DecodeBattery 5 = some (10 * 5) ∧ ble.DecodeBattery 15 = none :=
  ⟨(c7_decode_battery_nibble 5 (by decide)).1 (by decide),
   (c7_decode_battery_nibble 15 (by decide)).2.2.1 rfl⟩

/-- C8: the Scenario 4 packet is classified as a battery packet and parses
to Left at level 90 (status 2 = discharging), Right at level 50 (status
2 = discharging), and Case at level 70 (status 1 = charging). -/
theorem c8_scenario4_parse :
    aap.IsBatteryPacket scenario4Packet = true ∧
    aap.ParseBatteryPacket scenario4Packet = .ok
      { Left := some { Component := 4, Level := 90, Status := 2 },
        Right := some { Component := 2, Level := 50, Status := 2 },
        Case := some { Component := 8, Level := 70, Status := 1 } } ∧
    (1 : Nat) = aap.StatusCharging ∧ (2 : Nat) ≠ aap.StatusCharging := by
  refine ⟨rfl, by decide, rfl, by decide⟩

/-- C1 counterexample: the AAP battery path does not normalize levels
at or above 101. The packet `levelFFPacket` parses (and classifies) as a
battery packet with a Left level byte of `0xFF = 255`, and `aapToState`
stores `LeftBattery = some 255`, violating the claimed `0..=100`-or-absent
invariant for the AAP path. -/
theorem c1_counterexample :
    aap.IsBatteryPacket levelFFPacket = true ∧
    aap.ParseBatteryPacket levelFFPacket =
      .ok { Left := some { Component := 4, Level := 255, Status := 2 } } ∧
    (podstate.aapToState [] { Left := some { Component := 4, Level := 255, Status := 2 } }
      levelFFPacket "00:11:22:33:44:55").LeftBattery = some 255 ∧
    ¬(255 ≤ 100) := by
  refine ⟨rfl, by decide, rfl, by decide⟩

/-- C1 (amended): battery levels reaching a `PodState` through the BLE
branch (nibble decode, optionally overwritten by a decrypted-advertisement
merge) are always absent or in `0..=100`; the AAP battery path, by
contrast, stores the parsed level byte unchanged (no normalization). -/
theorem c1_ble_levels_in_range (data : List Nat) (keys : List (String × List Nat))
    (randomMac : String) (pd : ble.ProximityData)
    (h : ble.ParseProximityData data = .ok pd) :
    stateLevelsOk (podstate.bleToState keys
      (podstate.tryDecryptAndIdentify keys pd randomMac).2
      (podstate.tryDecryptAndIdentify keys pd randomMac).1 randomMac) ∧
    ∀ bat : aap.Battery,
      podstate.getBatteryFromAAP (some bat) = (some bat.Level, bat.Status == aap.StatusCharging) := by
  constructor
  · have hrec := tryDecryptAndIdentify_levelsOk keys pd randomMac
      (ParseProximityData_ok_levelsOk data pd h)
    exact ⟨hrec.1, hrec.2.1, hrec.2.2⟩
  · intro bat
    rfl

/-- A minimal all-zero advertisement used by the C1 witness. -/
def zeroAdv : List Nat := [0x07, 10, 0x01, 0, 0, 0, 0, 0, 0, 0, 0, 0]

/-- The parse result of `zeroAdv`. -/
def pdZero : ble.ProximityData :=
  { DeviceModel := 0, Status := 0, LeftBattery := some 0, RightBattery := some 0,
    CaseBattery := some 0, LeftCharging := false, RightCharging := false,
    CaseCharging := false, LeftInEar := false, RightInEar := false, LidOpen := true,
    Color := 0, ConnectionState := 0, IsFlipped := true,
    RawData := [1, 0, 0, 0, 0, 0, 0, 0, 0, 0], HasDecrypted := false, RawDecrypted := [] }

/-- The `PodState` the BLE branch builds from `pdZero` with no stored keys. -/
def c1WitnessState : podstate.PodState :=
  podstate.bleToState [] (podstate.tryDecryptAndIdentify [] pdZero "R").2
    (podstate.tryDecryptAndIdentify [] pdZero "R").1 "R"

/-- C1 witness: the amended claim evaluated on the all-zero advertisement
and on a concrete AAP battery record with level 255. -/
theorem c1_witness :
    stateLevelsOk c1WitnessState ∧
    podstate.getBatteryFromAAP (some { Component := 4, Level := 255, Status := 2 }) =
      (some 255, false) :=
  ⟨(c1_ble_levels_in_range zeroAdv [] "R" pdZero (by decide)).1,
   (c1_ble_levels_in_range zeroAdv [] "R" pdZero (by decide)).2
     { Component := 4, Level := 255, Status := 2 }⟩

/-- C2 counterexample: for the parsed record of `adv26` (payload length
26, which is at least 25), the 16-octet block the coordinator extracts for
key-trial decryption is payload octets 9..24, which differs from the last
16 octets of the payload. -/
theorem c2_counterexample :
    (ble.ParseProximityData adv26).map (fun pd => pd.RawData.length) = .ok 26 ∧
    (ble.ParseProximityData adv26).map podstate.encryptedPortion = .ok (some adv26Portion) ∧
    (ble.ParseProximityData adv26).map (fun pd => pd.RawData.drop (pd.RawData.length - 16)) =
      .ok adv26Last ∧
    adv26Portion ≠ adv26Last := by
  refine ⟨by decide, by decide, by decide, by decide⟩

/-- C2 (amended): for a parsed record whose payload is at least 25 octets
the coordinator passes payload octets 9..24 to AES decryption — this
coincides with the last 16 octets exactly when the payload is exactly 25
octets; for payloads shorter than 25 octets no decryption is attempted and
the observed random MAC is returned with the record unchanged. -/
theorem c2_encrypted_portion (pd : ble.ProximityData) (keys : List (String × List Nat))
    (randomMac : String) :
    (pd.RawData.length ≥ 25 →
      podstate.encryptedPortion pd = some ((pd.RawData.drop 9).take 16) ∧
      (pd.RawData.length = 25 →
        (pd.RawData.drop 9).take 16 = pd.RawData.drop (pd.RawData.length - 16))) ∧
    (pd.RawData.length < 25 →
      podstate.encryptedPortion pd = none ∧
      podstate.tryDecryptAndIdentify keys pd randomMac = (randomMac, pd)) := by
  constructor
  · intro hge
    constructor
    · unfold podstate.encryptedPortion
      rw [if_neg (by omega)]
    · intro h25
      have hdroplen : (pd.RawData.drop 9).length = 16 := by
        rw [List.length_drop, h25]
      rw [List.take_of_length_le (by omega), h25]
  · intro hlt
    have hport : podstate.encryptedPortion pd = none := by
      unfold podstate.encryptedPortion
      rw [if_pos hlt]
    refine ⟨hport, ?_⟩
    unfold podstate.tryDecryptAndIdentify
    rw [hport]

/-- A record whose raw payload is the 26-octet payload of `adv26`. -/
def pdC2Long : ble.ProximityData := { RawData := adv26.drop 2 }

/-- C2 witness: the amended claim evaluated on the parsed record of
`adv26` (payload 26: portion defined) and on `pdZero` (payload 10:
no decryption attempted). -/
theorem c2_witness :
    podstate.encryptedPortion pdC2Long = some ((pdC2Long.RawData.drop 9).take 16) ∧
    podstate.tryDecryptAndIdentify [] pdZero "R" = ("R", pdZero) :=
  ⟨((c2_encrypted_portion pdC2Long [] "R").1 (by decide)).1,
   ((c2_encrypted_portion pdZero [] "R").2 (by decide)).2⟩

/-- A coordinator with an active AAP session for MAC `"M"`, an empty
device-state map and no stored keys. -/
def cAapActive : podstate.PodStateCoordinator :=
  { deviceStates := fun _ => none, aapConnected := true, aapMacAddr := "M",
    encryptionKeys := [] }

/-- C3 counterexample: while `aap_connected = true` with `aap_mac = "M"`,
a BLE iteration that observes an advertisement under the distinct MAC
`"R"` performs no update at all — the coordinator is returned unchanged
and `device_states["R"]` stays empty — contradicting the claim that
BLE-sourced updates for MACs other than `aap_mac` proceed normally. -/
theorem c3_counterexample :
    cAapActive.aapConnected = true ∧ cAapActive.aapMacAddr = "M" ∧ ("R" : String) ≠ "M" ∧
    podstate.bleUpdateStep cAapActive (some (pdZero, "R")) = cAapActive ∧
    (podstate.bleUpdateStep cAapActive (some (pdZero, "R"))).deviceStates "R" = none := by
  refine ⟨rfl, rfl, by decide, rfl, rfl⟩

/-- C3 (amended): while `aap_connected = true`, the BLE branch performs no
update of `device_states` for any MAC — the entire scan iteration is
skipped, so in particular the AAP-sourced state for `aap_mac` is never
overwritten, and no BLE update for any other MAC is applied either. -/
theorem c3_ble_suppressed_while_aap (m : podstate.PodStateCoordinator)
    (scan : Option (ble.ProximityData × String)) (h : m.aapConnected = true) :
    podstate.bleUpdateStep m scan = m ∧
    ∀ mac, (podstate.bleUpdateStep m scan).deviceStates mac = m.deviceStates mac := by
  have h1 : podstate.bleUpdateStep m scan = m := by
    unfold podstate.bleUpdateStep
    rw [h, if_pos rfl]
  exact ⟨h1, fun mac => by rw [h1]⟩

/-- C3 witness: the amended claim evaluated on the concrete connected
coordinator. -/
theorem c3_witness :
    podstate.bleUpdateStep cAapActive none = cAapActive ∧
    (podstate.bleUpdateStep cAapActive none).deviceStates "X" = cAapActive.deviceStates "X" :=
  ⟨(c3_ble_suppressed_while_aap cAapActive none rfl).1,
   (c3_ble_suppressed_while_aap cAapActive none rfl).2 "X"⟩

/-- C9: on any input that is shorter than 2 octets, or whose first octet
is not `0x07`, or whose declared length exceeds the remaining buffer, or
whose payload is shorter than 10 octets or does not begin with `0x01`, the
proximity parser returns a framing error and produces no record. (The
embedding is a total function, so no input can make it panic; every Go
index access is behind the same guards.) -/
theorem c9_parse_rejects_malformed (data : List Nat)
    (h : data.length < 2 ∨ data.getD 0 0 ≠ 0x07 ∨ data.length < 2 + data.getD 1 0 ∨
         ((data.drop 2).take (data.getD 1 0)).length < 10 ∨
         ((data.drop 2).take (data.getD 1 0)).getD 0 0 ≠ 0x01) :
    ∃ e, ble.ParseProximityData data = .error e := by
  unfold ble.ParseProximityData
  dsimp only
  by_cases h1 : data.length < 2
  · rw [if_pos h1]
    exact ⟨_, rfl⟩
  rw [if_neg h1]
  by_cases h2 : data.getD 0 0 ≠ ble.proximityType
  · rw [if_pos h2]
    exact ⟨_, rfl⟩
  rw [if_neg h2]
  by_cases h3 : data.length < 2 + data.getD 1 0
  · rw [if_pos h3]
    exact ⟨_, rfl⟩
  rw [if_neg h3]
  by_cases h4 : ((data.drop 2).take (data.getD 1 0)).length < 10
  · rw [if_pos h4]
    exact ⟨_, rfl⟩
  rw [if_neg h4]
  by_cases h5 : ((data.drop 2).take (data.getD 1 0)).getD 0 0 ≠ 0x01
  · rw [if_pos h5]
    exact ⟨_, rfl⟩
  rw [if_neg h5]
  exfalso
  rw [ble.proximityType] at h2
  rcases h with hc | hc | hc | hc | hc
  · exact h1 hc
  · exact h2 hc
  · exact h3 hc
  · exact h4 hc
  · exact h5 hc

/-- C9 witness: the empty input is rejected. -/
theorem c9_witness : ∃ e, ble.ParseProximityData [] = .error e :=
  c9_parse_rejects_malformed [] (Or.inl (by decide))

/-- C10: when a 16-byte decrypted block is merged, a case byte (byte 3)
whose level bits exceed 100 leaves the case battery absent while the case
charging flag keeps its previous (nibble-derived) value; the left and
right charging flags are always overwritten with the decrypted bit-7
values, even when the corresponding level bits exceed 100 and the level
fields become absent. -/
theorem c10_merge_partial_overwrite (pd : ble.ProximityData) (d : List Nat)
    (h : d.length = 16) :
    ∃ pd2, ble.AddDecryptedData pd d = .ok pd2 ∧
      (d.getD 3 0 &&& 0x7F > 100 →
        pd2.CaseBattery = none ∧ pd2.CaseCharging = pd.CaseCharging) ∧
      pd2.LeftCharging = (if pd.IsFlipped then decryptedCharging (d.getD 2 0)
        else decryptedCharging (d.getD 1 0)) ∧
      pd2.RightCharging = (if pd.IsFlipped then decryptedCharging (d.getD 1 0)
        else decryptedCharging (d.getD 2 0)) ∧
      (d.getD 1 0 &&& 0x7F > 100 →
        (if pd.IsFlipped then pd2.RightBattery else pd2.LeftBattery) = none) ∧
      (d.getD 2 0 &&& 0x7F > 100 →
        (if pd.IsFlipped then pd2.LeftBattery else pd2.RightBattery) = none) := by
  obtain ⟨pd2, hok⟩ := (AddDecryptedData_ok_iff pd d).mpr h
  obtain ⟨-, hLB, hRB, hLC, hRC, hCB, hCC, -⟩ := AddDecryptedData_spec pd d pd2 hok
  refine ⟨pd2, hok, ?_, hLC, hRC, ?_, ?_⟩
  · intro hbig
    constructor
    · rw [hCB]
      unfold decryptedLevel
      rw [if_neg (by omega)]
    · rw [hCC, if_neg (by omega)]
  · intro hbig
    by_cases hf : pd.IsFlipped <;>
      simp only [hf, if_true, if_false, Bool.false_eq_true] at hLB hRB ⊢ <;>
      [rw [hRB]; rw [hLB]] <;>
      (unfold decryptedLevel; rw [if_neg (by omega)])
  · intro hbig
    by_cases hf : pd.IsFlipped <;>
      simp only [hf, if_true, if_false, Bool.false_eq_true] at hLB hRB ⊢ <;>
      [rw [hLB]; rw [hRB]] <;>
      (unfold decryptedLevel; rw [if_neg (by omega)])

/-- A 16-byte decrypted block whose three battery bytes all carry invalid
(out-of-range) levels with bit 7 set. -/
def dBigLevels : List Nat := [0, 0xFF, 0xFE, 0xFD, 0, 0, 0, 0, 0, 0, 0, 0, 0, 0, 0, 0]

/-- A record with a previously set case-charging flag, used to observe
that the merge preserves it. -/
def pdCaseCharging : ble.ProximityData := { CaseCharging := true }

/-- C10 witness: the merge theorem evaluated on `pdCaseCharging` and
`dBigLevels`. -/
theorem c10_witness :
    ∃ pd2, ble.AddDecryptedData pdCaseCharging dBigLevels = .ok pd2 ∧
      (dBigLevels.getD 3 0 &&& 0x7F > 100 →
        pd2.CaseBattery = none ∧ pd2.CaseCharging = pdCaseCharging.CaseCharging) ∧
      pd2.LeftCharging = (if pdCaseCharging.IsFlipped then decryptedCharging (dBigLevels.getD 2 0)
        else decryptedCharging (dBigLevels.getD 1 0)) ∧
      pd2.RightCharging = (if pdCaseCharging.IsFlipped then decryptedCharging (dBigLevels.getD 1 0)
        else decryptedCharging (dBigLevels.getD 2 0)) ∧
      (dBigLevels.getD 1 0 &&& 0x7F > 100 →
        (if pdCaseCharging.IsFlipped then pd2.RightBattery else pd2.LeftBattery) = none) ∧
      (dBigLevels.getD 2 0 &&& 0x7F > 100 →
        (if pdCaseCharging.IsFlipped then pd2.LeftBattery else pd2.RightBattery) = none) :=
  c10_merge_partial_overwrite pdCaseCharging dBigLevels (by decide)

/-- C5: the proximity decryption function returns an error exactly when
the ciphertext is not 16 octets, or the key is not 16 octets, or the
AES-128 decryption result `out` has `(out[0] & 0xF0) ≠ 0` or
`out[4] ≠ 0x2D`; otherwise it returns the 16-byte decrypted block. -/
theorem c5_decrypt_error_conditions (encryptedData key : List Nat) :
    ((∃ e, ble.DecryptProximityPayload encryptedData key = .error e) ↔
      (encryptedData.length ≠ 16 ∨ key.length ≠ 16 ∨
       (ble.aes128Decrypt key encryptedData).getD 0 0 &&& 0xF0 ≠ 0 ∨
       (ble.aes128Decrypt key encryptedData).getD 4 0 ≠ 0x2D)) ∧
    (encryptedData.length = 16 → key.length = 16 →
      (ble.aes128Decrypt key encryptedData).getD 0 0 &&& 0xF0 = 0 →
      (ble.aes128Decrypt key encryptedData).getD 4 0 = 0x2D →
      ble.DecryptProximityPayload encryptedData key =
        .ok (ble.aes128Decrypt key encryptedData)) := by
  constructor
  · constructor
    · rintro ⟨e, he⟩
      unfold ble.DecryptProximityPayload at he
      split at he
      · next h1 => exact Or.inl h1
      split at he
      · next h2 => exact Or.inr (Or.inl h2)
      dsimp only at he
      split at he
      · next h3 =>
          rcases h3.2 with hv | hv
          · exact Or.inr (Or.inr (Or.inl hv))
          · exact Or.inr (Or.inr (Or.inr hv))
      · cases he
    · intro hcond
      unfold ble.DecryptProximityPayload
      by_cases h1 : encryptedData.length ≠ 16
      · rw [if_pos h1]
        exact ⟨_, rfl⟩
      rw [if_neg h1]
      by_cases h2 : key.length ≠ 16
      · rw [if_pos h2]
        exact ⟨_, rfl⟩
      rw [if_neg h2]
      dsimp only
      rw [if_pos ?side]
      · exact ⟨_, rfl⟩
      case side =>
        refine ⟨by rw [aes128Decrypt_length]; omega, ?_⟩
        rcases hcond with hc | hc | hc | hc
        · exact absurd hc h1
        · exact absurd hc h2
        · exact Or.inl hc
        · exact Or.inr hc
  · intro hl hk hv0 hv4
    unfold ble.DecryptProximityPayload
    rw [if_neg (by omega), if_neg (by omega)]
    dsimp only
    rw [if_neg ?_]
    · rintro ⟨-, hv | hv⟩
      · exact hv hv0
      · exact hv hv4

/-- The all-zero 16-byte block. -/
def zeros16 : List Nat := [0, 0, 0, 0, 0, 0, 0, 0, 0, 0, 0, 0, 0, 0, 0, 0]

/-- C5 witness: decrypting the all-zero block under the all-zero key
fails validation (`out[0] = 0x14` has a non-zero upper nibble), so the
codec reports an error. -/
theorem c5_witness : ∃ e, ble.DecryptProximityPayload zeros16 zeros16 = .error e :=
  (c5_decrypt_error_conditions zeros16 zeros16).1.mpr
    (Or.inr (Or.inr (Or.inl (by decide))))

/-- C6: for every status byte `s` and battery byte `b`, the parser derives
`primary_is_left = (s & 0x20) ≠ 0`, `in_case_flag = (s & 0x40) ≠ 0` and
`is_flipped = ¬primary_is_left`, and assigns the upper nibble of the
battery byte to the left battery and the lower nibble to the right battery
when not flipped, with the assignment swapped when flipped. -/
theorem c6_orientation_and_nibbles (s b : Nat) (hs : s < 256) (hb : b < 256) :
    ble.primaryLeftBit s = decide (s &&& 0x20 ≠ 0) ∧
    ble.inCaseBit s = decide (s &&& 0x40 ≠ 0) ∧
    ∀ pd, ble.ParseProximityData (mkStatusBatteryAdv s b) = .ok pd →
      pd.IsFlipped = !ble.primaryLeftBit s ∧
      (pd.IsFlipped = false →
        pd.LeftBattery = ble.DecodeBattery ((b >>> 4) &&& 0x0F) ∧
        pd.RightBattery = ble.DecodeBattery (b &&& 0x0F)) ∧
      (pd.IsFlipped = true →
        pd.LeftBattery = ble.DecodeBattery (b &&& 0x0F) ∧
        pd.RightBattery = ble.DecodeBattery ((b >>> 4) &&& 0x0F)) := by
  refine ⟨primaryLeftBit_eq_mask ⟨s, hs⟩, inCaseBit_eq_mask ⟨s, hs⟩, ?_⟩
  intro pd h
  obtain ⟨hSt, hFlip, hLB, hRB⟩ := ParseProximityData_ok_flip_nibbles (mkStatusBatteryAdv s b) pd h
  have hSt' : pd.Status = s := hSt
  have hLB' : pd.LeftBattery = ble.DecodeBattery
      (if pd.IsFlipped then b &&& 0x0F else (b >>> 4) &&& 0x0F) := hLB
  have hRB' : pd.RightBattery = ble.DecodeBattery
      (if pd.IsFlipped then (b >>> 4) &&& 0x0F else b &&& 0x0F) := hRB
  refine ⟨by rw [hFlip, hSt'], ?_, ?_⟩
  · intro hf
    rw [hLB', hRB', hf, if_neg (by simp), if_neg (by simp)]
    exact ⟨rfl, rfl⟩
  · intro hf
    rw [hLB', hRB', hf, if_pos rfl, if_pos rfl]
    exact ⟨rfl, rfl⟩

/-- C6 witness: the orientation/nibble claim evaluated at status byte 11
(bit 5 clear: right pod primary, flipped) and battery byte 153. -/
theorem c6_witness :
    ble.primaryLeftBit 11 = decide ((11 : Nat) &&& 0x20 ≠ 0) ∧
    ble.inCaseBit 11 = decide ((11 : Nat) &&& 0x40 ≠ 0) ∧
    (pdC6.IsFlipped = !ble.primaryLeftBit 11 ∧
      (pdC6.IsFlipped = false →
        pdC6.LeftBattery = ble.DecodeBattery ((153 >>> 4) &&& 0x0F) ∧
        pdC6.RightBattery = ble.DecodeBattery (153 &&& 0x0F)) ∧
      (pdC6.IsFlipped = true →
        pdC6.LeftBattery = ble.DecodeBattery (153 &&& 0x0F) ∧
        pdC6.RightBattery = ble.DecodeBattery ((153 >>> 4) &&& 0x0F))) :=
  ⟨(c6_orientation_and_nibbles 11 153 (by decide) (by decide)).1,
   (c6_orientation_and_nibbles 11 153 (by decide) (by decide)).2.1,
   (c6_orientation_and_nibbles 11 153 (by decide) (by decide)).2.2 pdC6 (by decide)⟩

/-- C4: with stored keys `{M1 ↦ K1, M2 ↦ K2}` (in either map-iteration
order), an advertisement observed under a random MAC `R` whose encrypted
portion validates under `K1` and not under `K2` is re-identified as `M1`:
the BLE branch stores under `M1` a `PodState` with `real_mac = M1`,
`current_ble_mac = R`, `source = Ble`, and the decrypted (1%-precision,
normalized) battery values. -/
theorem c4_key_trial_identification (M1 M2 R : String) (K1 K2 : List Nat)
    (pd : ble.ProximityData) (m : podstate.PodStateCoordinator) (port out : List Nat)
    (hR1 : R ≠ M1) (hR2 : R ≠ M2) (hM : M1 ≠ M2)
    (hconn : m.aapConnected = false)
    (hkeys : m.encryptionKeys = [(M1, K1), (M2, K2)] ∨
             m.encryptionKeys = [(M2, K2), (M1, K1)])
    (hport : podstate.encryptedPortion pd = some port)
    (hK1 : ble.DecryptProximityPayload port K1 = .ok out)
    (hK2 : ble.DecryptProximityPayload port K2 = .error .validationFailed) :
    ∃ pd2, ble.AddDecryptedData pd out = .ok pd2 ∧
      podstate.tryDecryptAndIdentify m.encryptionKeys pd R = (M1, pd2) ∧
      (podstate.bleUpdateStep m (some (pd, R))).deviceStates M1 =
        some (podstate.bleToState m.encryptionKeys pd2 M1 R) ∧
      (podstate.bleToState m.encryptionKeys pd2 M1 R).RealMac = M1 ∧
      (podstate.bleToState m.encryptionKeys pd2 M1 R).CurrentBLEMac = R ∧
      (podstate.bleToState m.encryptionKeys pd2 M1 R).Source = podstate.DataSource.BLE ∧
      (podstate.bleToState m.encryptionKeys pd2 M1 R).LeftBattery =
        (if pd.IsFlipped then decryptedLevel (out.getD 2 0) else decryptedLevel (out.getD 1 0)) ∧
      (podstate.bleToState m.encryptionKeys pd2 M1 R).RightBattery =
        (if pd.IsFlipped then decryptedLevel (out.getD 1 0) else decryptedLevel (out.getD 2 0)) ∧
      (podstate.bleToState m.encryptionKeys pd2 M1 R).CaseBattery =
        decryptedLevel (out.getD 3 0) ∧
      (podstate.bleToState m.encryptionKeys pd2 M1 R).LeftCharging =
        (if pd.IsFlipped then decryptedCharging (out.getD 2 0) else decryptedCharging (out.getD 1 0)) ∧
      (podstate.bleToState m.encryptionKeys pd2 M1 R).RightCharging =
        (if pd.IsFlipped then decryptedCharging (out.getD 1 0) else decryptedCharging (out.getD 2 0)) := by
  obtain ⟨-, houtlen, -, -⟩ := DecryptProximityPayload_ok port K1 out hK1
  obtain ⟨pd2, hadd⟩ := (AddDecryptedData_ok_iff pd out).mpr houtlen
  obtain ⟨-, hLB, hRB, hLC, hRC, hCB, -⟩ := AddDecryptedData_spec pd out pd2 hadd
  have htry : podstate.tryDecryptAndIdentify m.encryptionKeys pd R = (M1, pd2) := by
    unfold podstate.tryDecryptAndIdentify
    rw [hport]
    rcases hkeys with hk | hk <;> rw [hk]
    · exact tryKeys_cons_ok M1 K1 [(M2, K2)] port pd pd2 R out hK1 hadd
    · exact (tryKeys_cons_error M2 K2 [(M1, K1)] port pd R .validationFailed hK2).trans
        (tryKeys_cons_ok M1 K1 [] port pd pd2 R out hK1 hadd)
  refine ⟨pd2, hadd, htry, ?_, rfl, rfl, rfl, ?_, ?_, ?_, ?_, ?_⟩
  · rw [bleUpdateStep_not_connected m hconn pd R, htry]
    exact handleStateUpdate_self m M1 (podstate.bleToState m.encryptionKeys pd2 M1 R)
  · exact hLB
  · exact hRB
  · exact hCB
  · exact hLC
  · exact hRC

/-- A 16-byte trial key (the identified device's key in the witness). -/
def keyGood : List Nat := [0, 1, 2, 3, 4, 5, 6, 7, 8, 9, 10, 11, 12, 13, 14, 15]

/-- A second 16-byte key differing in its first byte; decryption of the
witness ciphertext under it fails validation. -/
def keyBad : List Nat := [170, 1, 2, 3, 4, 5, 6, 7, 8, 9, 10, 11, 12, 13, 14, 15]

/-- The AES-128 encryption under `keyGood` of a valid decrypted block
(upper nibble of byte 0 zero, byte 4 equal to `0x2D`, battery bytes
`0x5A`, `0x32`, `0xC6`). -/
def ctGood : List Nat :=
  [161, 27, 170, 122, 241, 184, 103, 218, 166, 96, 244, 74, 72, 217, 207, 143]

/-- The decryption of `ctGood` under `keyGood`. -/
def outGood : List Nat := [1, 90, 50, 198, 45, 0, 0, 0, 0, 0, 0, 0, 0, 0, 0, 0]

/-- A 25-octet advertisement payload whose last 16 octets are `ctGood`;
status byte `0x0B` has bit 5 clear, so the record is flipped. -/
def payloadGood : List Nat := [0x01, 0x27, 0x20, 0x0B, 0x99, 0x8F, 0x11, 0x00, 0x05] ++ ctGood

/-- The proximity record carrying `payloadGood`. -/
def pdGood : ble.ProximityData := { IsFlipped := true, RawData := payloadGood }

/-- A disconnected coordinator holding the two witness keys. -/
def mTwoKeys : podstate.PodStateCoordinator :=
  { deviceStates := fun _ => none, aapConnected := false, aapMacAddr := "",
    encryptionKeys := [("M1", keyGood), ("M2", keyBad)] }

/-- C4 witness: the key-trial theorem evaluated on the concrete
two-key coordinator, advertisement and keys (the AES decryptions are
evaluated by the kernel). -/
theorem c4_witness :
    ∃ pd2, ble.AddDecryptedData pdGood outGood = .ok pd2 ∧
      podstate.tryDecryptAndIdentify mTwoKeys.encryptionKeys pdGood "R" = ("M1", pd2) ∧
      (podstate.bleUpdateStep mTwoKeys (some (pdGood, "R"))).deviceStates "M1" =
        some (podstate.bleToState mTwoKeys.encryptionKeys pd2 "M1" "R") ∧
      (podstate.bleToState mTwoKeys.encryptionKeys pd2 "M1" "R").RealMac = "M1" ∧
      (podstate.bleToState mTwoKeys.encryptionKeys pd2 "M1" "R").CurrentBLEMac = "R" ∧
      (podstate.bleToState mTwoKeys.encryptionKeys pd2 "M1" "R").Source = podstate.DataSource.BLE ∧
      (podstate.bleToState mTwoKeys.encryptionKeys pd2 "M1" "R").LeftBattery =
        (if pdGood.IsFlipped then decryptedLevel (outGood.getD 2 0) else decryptedLevel (outGood.getD 1 0)) ∧
      (podstate.bleToState mTwoKeys.encryptionKeys pd2 "M1" "R").RightBattery =
        (if pdGood.IsFlipped then decryptedLevel (outGood.getD 1 0) else decryptedLevel (outGood.getD 2 0)) ∧
      (podstate.bleToState mTwoKeys.encryptionKeys pd2 "M1" "R").CaseBattery =
        decryptedLevel (outGood.getD 3 0) ∧
      (podstate.bleToState mTwoKeys.encryptionKeys pd2 "M1" "R").LeftCharging =
        (if pdGood.IsFlipped then decryptedCharging (outGood.getD 2 0) else decryptedCharging (outGood.getD 1 0)) ∧
      (podstate.bleToState mTwoKeys.encryptionKeys pd2 "M1" "R").RightCharging =
        (if pdGood.IsFlipped then decryptedCharging (outGood.getD 1 0) else decryptedCharging (outGood.getD 2 0)) :=
  c4_key_trial_identification "M1" "M2" "R" keyGood keyBad pdGood mTwoKeys ctGood outGood
    (by decide) (by decide) (by decide) rfl (Or.inl rfl) (by decide) (by decide) (by decide)
